import Mathlib

/-!
Verification of the Monte Carlo EPS × P/E valuation engine.

The repository contains two near-identical copies of the statistics and
simulation code: `src/backend/server.js` (the `simulation.js` module bundled
into the standalone server) and `src/worker/src/index.js` (the Cloudflare
worker bundle).  Both are embedded below, in the namespaces `backend` and
`worker`, as pure functions over exact rational arithmetic (JS numbers are
binary floating-point values, a subset of ℚ; the claims under scrutiny are
about exact algebraic structure, index arithmetic and control flow, none of
which depends on rounding).  The only two places where a genuinely
irrational real number is produced are `Math.pow(base, 1/years)` inside the
CAGR computation — modelled with `Real.rpow` on an ℝ-valued field — and the
Box–Muller standard-normal generator, which both modules use only through
`sampleTruncatedNormal`; following the specification ("for every sequence of
random draws") the stream of standard-normal draws is abstracted as an
arbitrary function `ℕ → ℚ`, indexed by attempt number.
-/

/-- One EPS history entry.  The source reads only the `eps` field of each
entry; `eps` can be a number, `null` or `undefined` (`Option ℚ` models the
latter two as `none`; JS comparisons `null > 0` and `undefined > 0` are both
false, matching the `none` branches below). -/
structure EpsEntry where
  eps : Option ℚ
  deriving DecidableEq

/-- Warning attached to a distribution estimate.  The source stores template
strings; their identity (which branch produced them) and the interpolated
pre-floor sigma are what the claims talk about, so the message is modelled
as an inductive payload rather than as formatted text. -/
inductive SimWarning where
  | insufficientHistory : SimWarning
  | tooFewValidPoints : SimWarning
  | sigmaFloored (computed : ℚ) : SimWarning
  deriving DecidableEq

/-- Result record of `computeEPSGrowthDistribution`. -/
structure GrowthDist where
  meanGrowth : ℚ
  sigmaGrowth : ℚ
  growthRates : List ℚ
  dataPoints : ℕ
  warning : Option SimWarning
  deriving DecidableEq

/-- Result record of `computePEDistribution`. -/
structure PEDist where
  meanPE : ℚ
  sigmaPE : ℚ
  peValues : List ℚ
  dataPoints : ℕ
  warning : Option SimWarning
  deriving DecidableEq

/-- Histogram bin `{binStart, binEnd, binMid, count, frequency}`.  `binMid`
is `Option` because the backend's degenerate (zero bin width) branch builds
its single bin without a `binMid` field, while the worker's includes it. -/
structure Bin (α : Type) where
  binStart : α
  binEnd : α
  binMid : Option α
  count : ℕ
  frequency : α
  deriving DecidableEq

/-- One Monte Carlo trial `{g, peT, epsT, priceT, cagr, beatsFD, isLoss}`. -/
structure Trial where
  g : ℚ
  peT : ℚ
  epsT : ℚ
  priceT : ℚ
  cagr : ℝ
  beatsFD : Bool
  isLoss : Bool
  deriving Inhabited

/-- Simulation parameters, with the source's destructuring defaults. -/
structure Params where
  price0 : ℚ
  eps0 : ℚ
  pe0 : ℚ
  years : ℕ
  numSimulations : ℕ
  fdRate : ℚ
  meanGrowth : ℚ
  sigmaGrowth : ℚ
  meanPE : ℚ
  sigmaPE : ℚ
  growthMin : ℚ := -(1/5)
  growthMax : ℚ := 2/5
  peMin : ℚ := 5
  peMax : ℚ := 60

/-- Percentile block `{p10, p25, p50, p75, p90, mean}` of one series. -/
structure SummaryStats (α : Type) where
  p10 : α
  p25 : α
  p50 : α
  p75 : α
  p90 : α
  mean : α

/-- The `summary` part of a simulation result. -/
structure Summary where
  price : SummaryStats ℚ
  cagr : SummaryStats ℝ
  probBeatsFD : ℚ
  probLoss : ℚ
  fdTarget : ℚ
  fdRate : ℚ
  years : ℕ
  numSimulations : ℕ

/-- One row of the 3×3 scenario matrix. -/
structure Scenario where
  growthLabel : String
  growthValue : ℚ
  peLabel : String
  peValue : ℚ
  epsT : ℚ
  priceT : ℚ
  cagr : ℝ

/-- Variance-decomposition sensitivity record. -/
structure Sensitivity where
  growthContribution : ℚ
  peContribution : ℚ
  varGrowth : ℚ
  varPE : ℚ

/-- The `distributions` part of a simulation result. -/
structure Distributions where
  price : List (Bin ℚ)
  cagr : List (Bin ℝ)
  growth : List (Bin ℚ)
  pe : List (Bin ℚ)

/-- Return value of the backend's `runSimulation`: its final field is the
full trial list `rawResults` ("For CSV download"). -/
structure BackendSimResult where
  summary : Summary
  scenarios : List Scenario
  sensitivity : Sensitivity
  distributions : Distributions
  inputParams : Params
  rawResults : List Trial

/-- Return value of the worker's `runSimulation`: instead of `rawResults`
it carries the stride-downsampled `sampledResults`. -/
structure WorkerSimResult where
  summary : Summary
  scenarios : List Scenario
  sensitivity : Sensitivity
  distributions : Distributions
  inputParams : Params
  sampledResults : List Trial

/-- One CSV data row.  The textual rendering is abstracted to the rounded
numeric value each `toFixed` call prints. -/
structure CsvRow where
  index : ℕ
  growthRate : ℚ
  terminalPE : ℚ
  terminalEPS : ℚ
  terminalPrice : ℚ
  cagr : ℝ
  beatsFD : Bool
  isLoss : Bool

/-- JS `Number.prototype.toFixed(d)` picks the integer `n` closest to
`x·10^d` (ties toward the larger `n`), i.e. `⌊x·10^d + 1/2⌋`, and prints
`n/10^d`. -/
def toFixedQ (d : ℕ) (x : ℚ) : ℚ :=
  ((⌊x * 10 ^ d + 1 / 2⌋ : ℤ) : ℚ) / 10 ^ d

/-- `toFixed` for the ℝ-valued CAGR column. -/
noncomputable def toFixedR (d : ℕ) (x : ℝ) : ℝ :=
  ((⌊x * 10 ^ d + 1 / 2⌋ : ℤ) : ℝ) / 10 ^ d

/-- `for (let i = 0; i < l.length; i += step) out.push(l[i])` — the worker's
downsampling loop (also used by the backend's `/api/simulate` route).  It
visits indices `0, step, 2·step, …`, i.e. `⌈l.length / step⌉` of them. -/
def strideSample {β : Type} [Inhabited β] (l : List β) (step : ℕ) : List β :=
  (List.range ((l.length + step - 1) / step)).map fun k => l.getD (k * step) default

/-- `bins[idx].count++`: in-place increment of the `count` field of the
bin at index `idx` (out-of-range indices leave the array unchanged; the
histogram loop always produces an in-range index). -/
def bumpCount {α : Type} : List (Bin α) → ℕ → List (Bin α)
  | [], _ => []
  | b :: bs, 0 => { b with count := b.count + 1 } :: bs
  | b :: bs, n + 1 => b :: bumpCount bs n

/-- The four fields of a bin other than `binMid`, used to compare the two
`buildHistogram` copies field-by-field. -/
def binShape {α : Type} (b : Bin α) : α × α × ℕ × α :=
  (b.binStart, b.binEnd, b.count, b.frequency)

/-- `binShape` applied across all four histogram series of a
`distributions` block. -/
def distShape (d : Distributions) :
    List (ℚ × ℚ × ℕ × ℚ) × List (ℝ × ℝ × ℕ × ℝ) × List (ℚ × ℚ × ℕ × ℚ) × List (ℚ × ℚ × ℕ × ℚ) :=
  (d.price.map binShape, d.cagr.map binShape, d.growth.map binShape, d.pe.map binShape)

namespace backend

section

variable {α : Type} [LinearOrderedField α] [FloorRing α]

/-- JS `arr.sort((a, b) => a - b)`: ascending numeric sort. -/
def sortAsc (arr : List α) : List α :=
  arr.insertionSort (· ≤ ·)

/-- `median(arr)` from `server.js`: sort ascending, take the middle element
for odd length, the average of the two middle elements for even length. -/
def median (arr : List α) : α :=
  let sorted := sortAsc arr
  let mid := arr.length / 2
  if arr.length % 2 ≠ 0 then sorted.getD mid 0
  else (sorted.getD (mid - 1) 0 + sorted.getD mid 0) / 2

/-- `mad(arr)`: median absolute deviation from the median. -/
def mad (arr : List α) : α :=
  let med := median arr
  median (arr.map fun x => |x - med|)

/-- `madSigma(arr) = mad(arr) * 1.4826`. -/
def madSigma (arr : List α) : α :=
  mad arr * (14826 / 10000)

/-- `iqrSigma(arr)` from `server.js`: quartiles are taken by direct
(floor) indexing into the sorted array — `sorted[Math.floor(n * 0.25)]` and
`sorted[Math.floor(n * 0.75)]`.  `0.25` and `0.75` are dyadic, so the float
products are exact and the floors equal the natural-number divisions
`n / 4` and `3 * n / 4`. -/
def iqrSigma (arr : List α) : α :=
  let sorted := sortAsc arr
  let q1 := sorted.getD (arr.length / 4) 0
  let q3 := sorted.getD (3 * arr.length / 4) 0
  (q3 - q1) / (1349 / 1000)

/-- `robustSigma(arr) = min(madSigma, iqrSigma)`. -/
def robustSigma (arr : List α) : α :=
  min (madSigma arr) (iqrSigma arr)

/-- `percentile(arr, p)`: fractional index `(p/100)·(n-1)`, exact value at
an integer index, linear interpolation between floor and ceiling
neighbours otherwise. -/
def percentile (arr : List α) (p : α) : α :=
  let sorted := sortAsc arr
  let idx := p / 100 * ((arr.length : α) - 1)
  let lower := ⌊idx⌋
  let upper := ⌈idx⌉
  if lower = upper then sorted.getD lower.toNat 0
  else
    sorted.getD lower.toNat 0 +
      (sorted.getD upper.toNat 0 - sorted.getD lower.toNat 0) * (idx - (lower : α))

end

/-- The do-while loop of the backend's `sampleTruncatedNormal`, unrolled on
the number of range checks still allowed.  At each step the candidate
`val = mean + sigma * normals attempt` is computed; after `attempts`
reaches 101 (here: fuel exhausted) the clamp `max(min, min(max, mean))` is
returned — at that point the loop body has computed one final candidate
that is never range-checked (see `stnDrawsGo`). -/
def stnGo (mean sigma mn mx : ℚ) (normals : ℕ → ℚ) : ℕ → ℕ → ℚ
  | _, 0 => max mn (min mx mean)
  | attempt, fuel + 1 =>
    let val := mean + sigma * normals attempt
    if val < mn ∨ mx < val then stnGo mean sigma mn mx normals (attempt + 1) fuel
    else val

/-- `sampleTruncatedNormal(mean, sigma, min, max)` from `server.js`:
rejection sampling with at most 100 range-checked candidates, falling back
to `Math.max(min, Math.min(max, mean))`. -/
def sampleTruncatedNormal (mean sigma mn mx : ℚ) (normals : ℕ → ℚ) : ℚ :=
  stnGo mean sigma mn mx normals 0 100

/-- How many times the backend's do-while loop evaluates
`mean + sigma * boxMullerNormal()`.  The loop body runs before the
`attempts > 100` test, so on full rejection the candidate expression is
evaluated 101 times, the last result being discarded unchecked. -/
def stnDrawsGo (mean sigma mn mx : ℚ) (normals : ℕ → ℚ) : ℕ → ℕ → ℕ
  | _, 0 => 1
  | attempt, fuel + 1 =>
    let val := mean + sigma * normals attempt
    if val < mn ∨ mx < val then 1 + stnDrawsGo mean sigma mn mx normals (attempt + 1) fuel
    else 1

/-- Draw count of one backend `sampleTruncatedNormal` call. -/
def sampleTruncatedNormalDraws (mean sigma mn mx : ℚ) (normals : ℕ → ℚ) : ℕ :=
  stnDrawsGo mean sigma mn mx normals 0 100

/-- The growth-rate collection loop of `computeEPSGrowthDistribution`:
for `i = 1 .. n-1`, when `epsHistory[i-1].eps > 0` and `epsHistory[i].eps`
is neither `null` nor `undefined`, push `(curr - prev) / |prev|`. -/
def collectGrowthRates : List EpsEntry → List ℚ
  | a :: b :: rest =>
    (match a.eps, b.eps with
      | some prev, some curr =>
        if 0 < prev then ((curr - prev) / |prev|) :: collectGrowthRates (b :: rest)
        else collectGrowthRates (b :: rest)
      | _, _ => collectGrowthRates (b :: rest))
  | _ => []

/-- `computeEPSGrowthDistribution(epsHistory)` from `server.js`.  The
argument is `Option`-wrapped to model the JS `!epsHistory` guard (a `null`
or `undefined` history). -/
def computeEPSGrowthDistribution (epsHistory : Option (List EpsEntry)) : GrowthDist :=
  match epsHistory with
  | none =>
    { meanGrowth := 1/10, sigmaGrowth := 15/100, growthRates := [], dataPoints := 0,
      warning := some .insufficientHistory }
  | some eh =>
    if eh.length < 2 then
      { meanGrowth := 1/10, sigmaGrowth := 15/100, growthRates := [], dataPoints := 0,
        warning := some .insufficientHistory }
    else
      let growthRates := collectGrowthRates eh
      if growthRates.length < 2 then
        { meanGrowth := 1/10, sigmaGrowth := 15/100, growthRates := growthRates,
          dataPoints := growthRates.length, warning := some .tooFewValidPoints }
      else
        let computedSigma := robustSigma growthRates
        let sigmaGrowthFinal := max computedSigma (1/10)
        { meanGrowth := median growthRates, sigmaGrowth := sigmaGrowthFinal,
          growthRates := growthRates, dataPoints := growthRates.length,
          warning := if computedSigma < 1/10 then some (.sigmaFloored computedSigma) else none }

/-- `computePEDistribution(peHistory)` from `server.js`. -/
def computePEDistribution (peHistory : Option (List ℚ)) : PEDist :=
  match peHistory with
  | none =>
    { meanPE := 25, sigmaPE := 8, peValues := [], dataPoints := 0,
      warning := some .insufficientHistory }
  | some pes =>
    if pes.length < 3 then
      { meanPE := 25, sigmaPE := 8, peValues := [], dataPoints := 0,
        warning := some .insufficientHistory }
    else
      let validPEs := pes.filter fun pe => decide (0 < pe ∧ pe < 200)
      if validPEs.length < 3 then
        { meanPE := 25, sigmaPE := 8, peValues := validPEs, dataPoints := validPEs.length,
          warning := some .tooFewValidPoints }
      else
        let computedPESigma := robustSigma validPEs
        let sigmaPEFinal := max computedPESigma 3
        { meanPE := median validPEs, sigmaPE := sigmaPEFinal, peValues := validPEs,
          dataPoints := validPEs.length,
          warning := if computedPESigma < 3 then some (.sigmaFloored computedPESigma) else none }

section

variable {α : Type} [LinearOrderedField α] [FloorRing α]

/-- `Math.min(...values)` over a non-empty list (the engine never calls it
on an empty one; `0` stands in for JS `Infinity` there). -/
def listMin (values : List α) : α :=
  match values with
  | [] => 0
  | h :: t => t.foldl min h

/-- `Math.max(...values)` over a non-empty list. -/
def listMax (values : List α) : α :=
  match values with
  | [] => 0
  | h :: t => t.foldl max h

/-- Bin index of one value: `Math.floor((v - min) / binWidth)`, clamped
first to `< numBins` and then to `≥ 0`, exactly as the two `if` statements
in the source do. -/
def histIdx (mn binWidth : α) (numBins : ℕ) (v : α) : ℕ :=
  let idx : ℤ := ⌊(v - mn) / binWidth⌋
  let idx := if (numBins : ℤ) ≤ idx then (numBins : ℤ) - 1 else idx
  let idx := if idx < 0 then 0 else idx
  idx.toNat

/-- `buildHistogram(values, numBins)` from `server.js`.  Note the degenerate
`binWidth === 0` branch returns a single bin WITHOUT a `binMid` field. -/
def buildHistogram (values : List α) (numBins : ℕ) : List (Bin α) :=
  let mn := listMin values
  let mx := listMax values
  let binWidth := (mx - mn) / (numBins : α)
  if binWidth = 0 then
    [{ binStart := mn, binEnd := mn, binMid := none, count := values.length, frequency := 1 }]
  else
    let bins := (List.range numBins).map fun i : ℕ =>
      ({ binStart := mn + (i : α) * binWidth,
         binEnd := mn + ((i : α) + 1) * binWidth,
         binMid := some (mn + ((i : α) + 1/2) * binWidth),
         count := 0,
         frequency := (0 : α) } : Bin α)
    let binned := values.foldl
      (fun bs v => bumpCount bs (histIdx mn binWidth numBins v)) bins
    binned.map fun b => { b with frequency := (b.count : α) / (values.length : α) }

end

/-- `fdTarget = price0 * Math.pow(1 + fdRate, years)`, computed once per
run. -/
def fdTargetOf (p : Params) : ℚ :=
  p.price0 * (1 + p.fdRate) ^ p.years

/-- One iteration of the backend's Monte Carlo loop.  `gN i` and `pN i` are
the standard-normal draw streams feeding trial `i`'s two
`sampleTruncatedNormal` calls. -/
noncomputable def trialFor (p : Params) (gN pN : ℕ → ℕ → ℚ) (i : ℕ) : Trial :=
  let g := sampleTruncatedNormal p.meanGrowth p.sigmaGrowth p.growthMin p.growthMax (gN i)
  let peT := sampleTruncatedNormal p.meanPE p.sigmaPE p.peMin p.peMax (pN i)
  let epsT := p.eps0 * (1 + g) ^ p.years
  let priceT := epsT * peT
  { g := g, peT := peT, epsT := epsT, priceT := priceT,
    cagr := ((priceT : ℝ) / (p.price0 : ℝ)) ^ ((1 : ℝ) / (p.years : ℝ)) - 1,
    beatsFD := decide (fdTargetOf p < priceT), isLoss := decide (priceT < p.price0) }

/-- The `results` array: trials `0 .. numSimulations - 1`. -/
noncomputable def simTrials (p : Params) (gN pN : ℕ → ℕ → ℚ) : List Trial :=
  (List.range p.numSimulations).map (trialFor p gN pN)

/-- The `summary` block of `runSimulation`. -/
noncomputable def summaryOf (p : Params) (results : List Trial) : Summary :=
  let prices := results.map Trial.priceT
  let cagrs := results.map Trial.cagr
  { price :=
      { p10 := percentile prices 10, p25 := percentile prices 25, p50 := percentile prices 50,
        p75 := percentile prices 75, p90 := percentile prices 90,
        mean := prices.sum / (prices.length : ℚ) },
    cagr :=
      { p10 := percentile cagrs 10, p25 := percentile cagrs 25, p50 := percentile cagrs 50,
        p75 := percentile cagrs 75, p90 := percentile cagrs 90,
        mean := cagrs.sum / (cagrs.length : ℝ) },
    probBeatsFD := ((results.filter Trial.beatsFD).length : ℚ) / (p.numSimulations : ℚ),
    probLoss := ((results.filter Trial.isLoss).length : ℚ) / (p.numSimulations : ℚ),
    fdTarget := fdTargetOf p, fdRate := p.fdRate, years := p.years,
    numSimulations := p.numSimulations }

/-- The 3×3 scenario table: growth P25/P50/P75 × P/E P25/P50/P75 of the
trial series, each combined into a deterministic point scenario. -/
noncomputable def scenariosOf (p : Params) (results : List Trial) : List Scenario :=
  let growths := results.map Trial.g
  let pes := results.map Trial.peT
  let gPercentiles : List (String × ℚ) := [("p25", percentile growths 25),
    ("p50", percentile growths 50), ("p75", percentile growths 75)]
  let pePercentiles : List (String × ℚ) := [("p25", percentile pes 25),
    ("p50", percentile pes 50), ("p75", percentile pes 75)]
  gPercentiles.flatMap fun gv => pePercentiles.map fun pv =>
    let epsScen := p.eps0 * (1 + gv.2) ^ p.years
    let priceScen := epsScen * pv.2
    ({ growthLabel := gv.1,
       growthValue := gv.2,
       peLabel := pv.1,
       peValue := pv.2,
       epsT := epsScen,
       priceT := priceScen,
       cagr := ((priceScen : ℝ) / (p.price0 : ℝ)) ^ ((1 : ℝ) / (p.years : ℝ)) - 1 } : Scenario)

/-- Population variance `Σ (v - mean)² / n`. -/
def varianceOf (arr : List ℚ) : ℚ :=
  let m := arr.sum / (arr.length : ℚ)
  (arr.map fun v => (v - m) ^ 2).sum / (arr.length : ℚ)

/-- The variance-decomposition sensitivity block: fix one factor at its
trial-series median, let the other vary across all trials. -/
noncomputable def sensitivityOf (p : Params) (results : List Trial) : Sensitivity :=
  let medianGrowth := percentile (results.map Trial.g) 50
  let medianPE := percentile (results.map Trial.peT) 50
  let pricesVaryGrowth := results.map fun r => p.eps0 * (1 + r.g) ^ p.years * medianPE
  let pricesVaryPE := results.map fun r => p.eps0 * (1 + medianGrowth) ^ p.years * r.peT
  let varGrowth := varianceOf pricesVaryGrowth
  let varPE := varianceOf pricesVaryPE
  let totalVar := varGrowth + varPE
  { growthContribution := if 0 < totalVar then varGrowth / totalVar else 1/2,
    peContribution := if 0 < totalVar then varPE / totalVar else 1/2,
    varGrowth := varGrowth, varPE := varPE }

/-- The four per-series histograms of the `distributions` block. -/
noncomputable def distributionsOf (results : List Trial) : Distributions :=
  { price := buildHistogram (results.map Trial.priceT) 50,
    cagr := buildHistogram (results.map Trial.cagr) 50,
    growth := buildHistogram (results.map Trial.g) 30,
    pe := buildHistogram (results.map Trial.peT) 30 }

/-- `runSimulation(params)` from `server.js`.  Its last field is the full
trial list `rawResults`. -/
noncomputable def runSimulation (p : Params) (gN pN : ℕ → ℕ → ℚ) : BackendSimResult :=
  let results := simTrials p gN pN
  { summary := summaryOf p results, scenarios := scenariosOf p results,
    sensitivity := sensitivityOf p results, distributions := distributionsOf results,
    inputParams := p, rawResults := results }

/-- The `/api/simulate/csv` route of `server.js`: one row per entry of
`result.rawResults`, 1-based index, `toFixed` precisions 6/2/4/2/6. -/
noncomputable def csvRows (p : Params) (gN pN : ℕ → ℕ → ℚ) : List CsvRow :=
  (runSimulation p gN pN).rawResults.enum.map fun ir =>
    { index := ir.1 + 1, growthRate := toFixedQ 6 ir.2.g, terminalPE := toFixedQ 2 ir.2.peT,
      terminalEPS := toFixedQ 4 ir.2.epsT, terminalPrice := toFixedQ 2 ir.2.priceT,
      cagr := toFixedR 6 ir.2.cagr, beatsFD := ir.2.beatsFD, isLoss := ir.2.isLoss }

end backend

namespace worker

section

variable {α : Type} [LinearOrderedField α] [FloorRing α]

/-- JS `arr.sort((a, b) => a - b)` in `index.js`. -/
def sortAsc (arr : List α) : List α :=
  arr.insertionSort (· ≤ ·)

/-- `median(arr)` from `index.js` (same text as the backend copy). -/
def median (arr : List α) : α :=
  let sorted := sortAsc arr
  let mid := arr.length / 2
  if arr.length % 2 ≠ 0 then sorted.getD mid 0
  else (sorted.getD (mid - 1) 0 + sorted.getD mid 0) / 2

/-- `mad(arr)` from `index.js`. -/
def mad (arr : List α) : α :=
  let med := median arr
  median (arr.map fun x => |x - med|)

/-- `madSigma(arr)` from `index.js`. -/
def madSigma (arr : List α) : α :=
  mad arr * (14826 / 10000)

/-- `iqrSigma(arr)` from `index.js`: same floor-indexed quartiles as the
backend copy. -/
def iqrSigma (arr : List α) : α :=
  let sorted := sortAsc arr
  let q1 := sorted.getD (arr.length / 4) 0
  let q3 := sorted.getD (3 * arr.length / 4) 0
  (q3 - q1) / (1349 / 1000)

/-- `robustSigma(arr)` from `index.js`. -/
def robustSigma (arr : List α) : α :=
  min (madSigma arr) (iqrSigma arr)

/-- `percentile(arr, p)` from `index.js`. -/
def percentile (arr : List α) (p : α) : α :=
  let sorted := sortAsc arr
  let idx := p / 100 * ((arr.length : α) - 1)
  let lower := ⌊idx⌋
  let upper := ⌈idx⌉
  if lower = upper then sorted.getD lower.toNat 0
  else
    sorted.getD lower.toNat 0 +
      (sorted.getD upper.toNat 0 - sorted.getD lower.toNat 0) * (idx - (lower : α))

end

/-- The worker's `sampleTruncatedNormal` is a `for (a = 0; a < 100; a++)`
loop: each iteration computes one candidate, returns it if in range, and
after 100 failed iterations the clamp is returned.  `fuel` counts the
iterations still allowed. -/
def stnGo (mean sigma mn mx : ℚ) (normals : ℕ → ℚ) : ℕ → ℕ → ℚ
  | _, 0 => max mn (min mx mean)
  | attempt, fuel + 1 =>
    let val := mean + sigma * normals attempt
    if mn ≤ val ∧ val ≤ mx then val
    else stnGo mean sigma mn mx normals (attempt + 1) fuel

/-- `sampleTruncatedNormal(mean, sigma, min, max)` from `index.js`. -/
def sampleTruncatedNormal (mean sigma mn mx : ℚ) (normals : ℕ → ℚ) : ℚ :=
  stnGo mean sigma mn mx normals 0 100

/-- How many times the worker's for-loop evaluates
`mean + sigma * boxMullerNormal()`: once per iteration, at most 100. -/
def stnDrawsGo (mean sigma mn mx : ℚ) (normals : ℕ → ℚ) : ℕ → ℕ → ℕ
  | _, 0 => 0
  | attempt, fuel + 1 =>
    let val := mean + sigma * normals attempt
    if mn ≤ val ∧ val ≤ mx then 1
    else 1 + stnDrawsGo mean sigma mn mx normals (attempt + 1) fuel

/-- Draw count of one worker `sampleTruncatedNormal` call. -/
def sampleTruncatedNormalDraws (mean sigma mn mx : ℚ) (normals : ℕ → ℚ) : ℕ :=
  stnDrawsGo mean sigma mn mx normals 0 100

/-- The growth-rate collection loop of the worker's
`computeEPSGrowthDistribution` (`curr != null` is JS loose inequality,
excluding both `null` and `undefined`, exactly like the backend's
`curr !== null && curr !== undefined`). -/
def collectGrowthRates : List EpsEntry → List ℚ
  | a :: b :: rest =>
    (match a.eps, b.eps with
      | some prev, some curr =>
        if 0 < prev then ((curr - prev) / |prev|) :: collectGrowthRates (b :: rest)
        else collectGrowthRates (b :: rest)
      | _, _ => collectGrowthRates (b :: rest))
  | _ => []

/-- `computeEPSGrowthDistribution(epsHistory)` from `index.js`. -/
def computeEPSGrowthDistribution (epsHistory : Option (List EpsEntry)) : GrowthDist :=
  match epsHistory with
  | none =>
    { meanGrowth := 1/10, sigmaGrowth := 15/100, growthRates := [], dataPoints := 0,
      warning := some .insufficientHistory }
  | some eh =>
    if eh.length < 2 then
      { meanGrowth := 1/10, sigmaGrowth := 15/100, growthRates := [], dataPoints := 0,
        warning := some .insufficientHistory }
    else
      let growthRates := collectGrowthRates eh
      if growthRates.length < 2 then
        { meanGrowth := 1/10, sigmaGrowth := 15/100, growthRates := growthRates,
          dataPoints := growthRates.length, warning := some .tooFewValidPoints }
      else
        let computed := robustSigma growthRates
        let sigma := max computed (1/10)
        { meanGrowth := median growthRates, sigmaGrowth := sigma,
          growthRates := growthRates, dataPoints := growthRates.length,
          warning := if computed < 1/10 then some (.sigmaFloored computed) else none }

/-- `computePEDistribution(peHistory)` from `index.js`. -/
def computePEDistribution (peHistory : Option (List ℚ)) : PEDist :=
  match peHistory with
  | none =>
    { meanPE := 25, sigmaPE := 8, peValues := [], dataPoints := 0,
      warning := some .insufficientHistory }
  | some pes =>
    if pes.length < 3 then
      { meanPE := 25, sigmaPE := 8, peValues := [], dataPoints := 0,
        warning := some .insufficientHistory }
    else
      let valid := pes.filter fun pe => decide (0 < pe ∧ pe < 200)
      if valid.length < 3 then
        { meanPE := 25, sigmaPE := 8, peValues := valid, dataPoints := valid.length,
          warning := some .tooFewValidPoints }
      else
        let computed := robustSigma valid
        { meanPE := median valid, sigmaPE := max computed 3, peValues := valid,
          dataPoints := valid.length,
          warning := if computed < 3 then some (.sigmaFloored computed) else none }

section

variable {α : Type} [LinearOrderedField α] [FloorRing α]

/-- `Math.min(...values)` (worker copy). -/
def listMin (values : List α) : α :=
  match values with
  | [] => 0
  | h :: t => t.foldl min h

/-- `Math.max(...values)` (worker copy). -/
def listMax (values : List α) : α :=
  match values with
  | [] => 0
  | h :: t => t.foldl max h

/-- Bin index of one value (worker copy of the same two clamping `if`s). -/
def histIdx (mn binWidth : α) (numBins : ℕ) (v : α) : ℕ :=
  let idx : ℤ := ⌊(v - mn) / binWidth⌋
  let idx := if (numBins : ℤ) ≤ idx then (numBins : ℤ) - 1 else idx
  let idx := if idx < 0 then 0 else idx
  idx.toNat

/-- `buildHistogram(values, numBins)` from `index.js`.  Unlike the backend
copy, its degenerate branch DOES include `binMid: mn`. -/
def buildHistogram (values : List α) (numBins : ℕ) : List (Bin α) :=
  let mn := listMin values
  let mx := listMax values
  let bw := (mx - mn) / (numBins : α)
  if bw = 0 then
    [{ binStart := mn, binEnd := mn, binMid := some mn, count := values.length, frequency := 1 }]
  else
    let bins := (List.range numBins).map fun i : ℕ =>
      ({ binStart := mn + (i : α) * bw,
         binEnd := mn + ((i : α) + 1) * bw,
         binMid := some (mn + ((i : α) + 1/2) * bw),
         count := 0,
         frequency := (0 : α) } : Bin α)
    let binned := values.foldl
      (fun bs v => bumpCount bs (histIdx mn bw numBins v)) bins
    binned.map fun b => { b with frequency := (b.count : α) / (values.length : α) }

end

/-- `fdTarget` (worker copy). -/
def fdTargetOf (p : Params) : ℚ :=
  p.price0 * (1 + p.fdRate) ^ p.years

/-- One iteration of the worker's Monte Carlo loop. -/
noncomputable def trialFor (p : Params) (gN pN : ℕ → ℕ → ℚ) (i : ℕ) : Trial :=
  let g := sampleTruncatedNormal p.meanGrowth p.sigmaGrowth p.growthMin p.growthMax (gN i)
  let peT := sampleTruncatedNormal p.meanPE p.sigmaPE p.peMin p.peMax (pN i)
  let epsT := p.eps0 * (1 + g) ^ p.years
  let priceT := epsT * peT
  { g := g, peT := peT, epsT := epsT, priceT := priceT,
    cagr := ((priceT : ℝ) / (p.price0 : ℝ)) ^ ((1 : ℝ) / (p.years : ℝ)) - 1,
    beatsFD := decide (fdTargetOf p < priceT), isLoss := decide (priceT < p.price0) }

/-- The worker's `results` array. -/
noncomputable def simTrials (p : Params) (gN pN : ℕ → ℕ → ℚ) : List Trial :=
  (List.range p.numSimulations).map (trialFor p gN pN)

/-- The worker's `summary` block. -/
noncomputable def summaryOf (p : Params) (results : List Trial) : Summary :=
  let prices := results.map Trial.priceT
  let cagrs := results.map Trial.cagr
  { price :=
      { p10 := percentile prices 10, p25 := percentile prices 25, p50 := percentile prices 50,
        p75 := percentile prices 75, p90 := percentile prices 90,
        mean := prices.sum / (prices.length : ℚ) },
    cagr :=
      { p10 := percentile cagrs 10, p25 := percentile cagrs 25, p50 := percentile cagrs 50,
        p75 := percentile cagrs 75, p90 := percentile cagrs 90,
        mean := cagrs.sum / (cagrs.length : ℝ) },
    probBeatsFD := ((results.filter Trial.beatsFD).length : ℚ) / (p.numSimulations : ℚ),
    probLoss := ((results.filter Trial.isLoss).length : ℚ) / (p.numSimulations : ℚ),
    fdTarget := fdTargetOf p, fdRate := p.fdRate, years := p.years,
    numSimulations := p.numSimulations }

/-- The worker's scenario table. -/
noncomputable def scenariosOf (p : Params) (results : List Trial) : List Scenario :=
  let growths := results.map Trial.g
  let pes := results.map Trial.peT
  let gP : List (String × ℚ) := [("p25", percentile growths 25),
    ("p50", percentile growths 50), ("p75", percentile growths 75)]
  let peP : List (String × ℚ) := [("p25", percentile pes 25),
    ("p50", percentile pes 50), ("p75", percentile pes 75)]
  gP.flatMap fun gv => peP.map fun pv =>
    let e := p.eps0 * (1 + gv.2) ^ p.years
    let pr := e * pv.2
    ({ growthLabel := gv.1,
       growthValue := gv.2,
       peLabel := pv.1,
       peValue := pv.2,
       epsT := e,
       priceT := pr,
       cagr := ((pr : ℝ) / (p.price0 : ℝ)) ^ ((1 : ℝ) / (p.years : ℝ)) - 1 } : Scenario)

/-- Population variance (worker copy). -/
def varianceOf (arr : List ℚ) : ℚ :=
  let m := arr.sum / (arr.length : ℚ)
  (arr.map fun v => (v - m) ^ 2).sum / (arr.length : ℚ)

/-- The worker's sensitivity block. -/
noncomputable def sensitivityOf (p : Params) (results : List Trial) : Sensitivity :=
  let medG := percentile (results.map Trial.g) 50
  let medPE := percentile (results.map Trial.peT) 50
  let vg := results.map fun r => p.eps0 * (1 + r.g) ^ p.years * medPE
  let vp := results.map fun r => p.eps0 * (1 + medG) ^ p.years * r.peT
  let varG := varianceOf vg
  let varP := varianceOf vp
  let tot := varG + varP
  { growthContribution := if 0 < tot then varG / tot else 1/2,
    peContribution := if 0 < tot then varP / tot else 1/2,
    varGrowth := varG, varPE := varP }

/-- The worker's `distributions` block. -/
noncomputable def distributionsOf (results : List Trial) : Distributions :=
  { price := buildHistogram (results.map Trial.priceT) 50,
    cagr := buildHistogram (results.map Trial.cagr) 50,
    growth := buildHistogram (results.map Trial.g) 30,
    pe := buildHistogram (results.map Trial.peT) 30 }

/-- `runSimulation(params)` from `index.js`.  Unlike the backend's, its
result carries `sampledResults`: every `step`-th trial with
`step = max(1, floor(results.length / 2000))`. -/
noncomputable def runSimulation (p : Params) (gN pN : ℕ → ℕ → ℚ) : WorkerSimResult :=
  let results := simTrials p gN pN
  { summary := summaryOf p results, scenarios := scenariosOf p results,
    sensitivity := sensitivityOf p results, distributions := distributionsOf results,
    inputParams := p,
    sampledResults := strideSample results (max 1 (results.length / 2000)) }

/-- The `/api/simulate/csv` route of `index.js`: despite the comment in the
source ("Use rawResults from full simulation (before sampling)"), it
iterates `result.sampledResults` — the stride-downsampled list — with the
same 6/2/4/2/6 `toFixed` precisions as the backend route. -/
noncomputable def csvRows (p : Params) (gN pN : ℕ → ℕ → ℚ) : List CsvRow :=
  (runSimulation p gN pN).sampledResults.enum.map fun ir =>
    { index := ir.1 + 1, growthRate := toFixedQ 6 ir.2.g, terminalPE := toFixedQ 2 ir.2.peT,
      terminalEPS := toFixedQ 4 ir.2.epsT, terminalPrice := toFixedQ 2 ir.2.priceT,
      cagr := toFixedR 6 ir.2.cagr, beatsFD := ir.2.beatsFD, isLoss := ir.2.isLoss }

end worker

/-- Modelled from the spec's words, for comparison with the source's
`iqrSigma` (claim C3): "(Q3 − Q1) / 1.349 where Q1, Q3 are the 25th/75th
percentiles computed by linear-interpolation percentile". -/
def iqrSigmaSpec (values : List ℚ) : ℚ :=
  (backend.percentile values 75 - backend.percentile values 25) / (1349 / 1000)

/-- An all-zero standard-normal draw stream, used to evaluate the engine at
concrete inputs. -/
def zeroDraws : ℕ → ℕ → ℚ := fun _ _ => 0

/-- Concrete well-formed simulation parameters (one trial). -/
def paramsA : Params :=
  { price0 := 100, eps0 := 5, pe0 := 20, years := 5, numSimulations := 1, fdRate := 0,
    meanGrowth := 0, sigmaGrowth := 1, meanPE := 20, sigmaPE := 3,
    growthMin := -1, growthMax := 1, peMin := 5, peMax := 60 }

/-- Concrete parameters whose growth and P/E intervals are inverted
(`min > max`), so the rejection sampler always falls back to the clamp. -/
def paramsInverted : Params :=
  { price0 := 1, eps0 := 1, pe0 := 1, years := 1, numSimulations := 1, fdRate := 0,
    meanGrowth := 5, sigmaGrowth := 0, meanPE := 5, sigmaPE := 0,
    growthMin := 1, growthMax := 0, peMin := 1, peMax := 0 }

/-- Concrete parameters with 4000 trials, enough to make the worker's
downsampling stride equal 2. -/
def paramsCsv : Params :=
  { price0 := 100, eps0 := 5, pe0 := 20, years := 1, numSimulations := 4000, fdRate := 0,
    meanGrowth := 0, sigmaGrowth := 0, meanPE := 20, sigmaPE := 0,
    growthMin := -1, growthMax := 1, peMin := 5, peMax := 60 }

/-- The per-pair growth rule as the spec words it: for a consecutive pair
`(prev, curr)`, produce `(curr - prev) / |prev|` when `prev > 0` and `curr`
is defined, nothing otherwise. -/
def growthRateOfPair (pc : EpsEntry × EpsEntry) : Option ℚ :=
  match pc.1.eps, pc.2.eps with
  | some prev, some curr => if 0 < prev then some ((curr - prev) / |prev|) else none
  | _, _ => none

/-- Concrete EPS history `100 → 110 → 121` (10% growth twice). -/
def epsHistW : List EpsEntry :=
  [{ eps := some 100 }, { eps := some 110 }, { eps := some 121 }]

lemma stnGo_eq (mean sigma mn mx : ℚ) (N : ℕ → ℚ) :
    ∀ (fuel attempt : ℕ),
      backend.stnGo mean sigma mn mx N attempt fuel = worker.stnGo mean sigma mn mx N attempt fuel := by
  intro fuel
  induction fuel with
  | zero => intro a; rfl
  | succ f ih =>
    intro a
    simp only [backend.stnGo, worker.stnGo]
    by_cases h : mn ≤ mean + sigma * N a ∧ mean + sigma * N a ≤ mx
    · rw [if_neg, if_pos h]
      rintro (hlt | hgt)
      · exact absurd h.1 (not_le.mpr hlt)
      · exact absurd h.2 (not_le.mpr hgt)
    · rw [if_pos, if_neg h, ih]
      by_contra hc
      push_neg at hc
      exact h ⟨hc.1, hc.2⟩

lemma stn_eq (mean sigma mn mx : ℚ) (N : ℕ → ℚ) :
    backend.sampleTruncatedNormal mean sigma mn mx N = worker.sampleTruncatedNormal mean sigma mn mx N :=
  stnGo_eq mean sigma mn mx N 100 0

lemma stnGo_mem (mean sigma mn mx : ℚ) (N : ℕ → ℚ) (h : mn ≤ mx) :
    ∀ (fuel attempt : ℕ),
      mn ≤ backend.stnGo mean sigma mn mx N attempt fuel ∧
        backend.stnGo mean sigma mn mx N attempt fuel ≤ mx := by
  intro fuel
  induction fuel with
  | zero =>
    intro a
    refine ⟨le_max_left _ _, max_le h ?_⟩
    exact le_trans (min_le_left _ _) le_rfl
  | succ f ih =>
    intro a
    simp only [backend.stnGo]
    split_ifs with hc
    · exact ih (a + 1)
    · push_neg at hc
      exact ⟨hc.1, hc.2⟩

lemma stn_mem (mean sigma mn mx : ℚ) (N : ℕ → ℚ) (h : mn ≤ mx) :
    mn ≤ backend.sampleTruncatedNormal mean sigma mn mx N ∧
      backend.sampleTruncatedNormal mean sigma mn mx N ≤ mx :=
  stnGo_mem mean sigma mn mx N h 100 0

lemma stnGo_sigma_zero (mean mn mx : ℚ) (N : ℕ → ℚ) :
    ∀ (fuel attempt : ℕ),
      backend.stnGo mean 0 mn mx N attempt (fuel + 1) =
        if mn ≤ mean ∧ mean ≤ mx then mean else max mn (min mx mean) := by
  intro fuel
  induction fuel with
  | zero =>
    intro a
    simp only [backend.stnGo, zero_mul, add_zero]
    by_cases h : mn ≤ mean ∧ mean ≤ mx
    · rw [if_neg, if_pos h]
      rintro (hlt | hgt)
      · exact absurd h.1 (not_le.mpr hlt)
      · exact absurd h.2 (not_le.mpr hgt)
    · rw [if_pos, if_neg h]
      by_contra hc
      push_neg at hc
      exact h ⟨hc.1, hc.2⟩
  | succ f ih =>
    intro a
    show (if mean + 0 * N a < mn ∨ mx < mean + 0 * N a then
        backend.stnGo mean 0 mn mx N (a + 1) (f + 1)
      else mean + 0 * N a) = _
    rw [zero_mul, add_zero, ih (a + 1)]
    by_cases h : mn ≤ mean ∧ mean ≤ mx
    · rw [if_pos h]
      split_ifs with hr
      · rfl
      · rfl
    · rw [if_neg h, if_pos]
      by_contra hc
      push_neg at hc
      exact h ⟨hc.1, hc.2⟩

lemma stn_sigma_zero (mean mn mx : ℚ) (N : ℕ → ℚ) :
    backend.sampleTruncatedNormal mean 0 mn mx N =
      if mn ≤ mean ∧ mean ≤ mx then mean else max mn (min mx mean) :=
  stnGo_sigma_zero mean mn mx N 99 0

lemma stnGo_reject_all (mean sigma mn mx : ℚ) (N : ℕ → ℚ)
    (h : ∀ j, mean + sigma * N j < mn ∨ mx < mean + sigma * N j) :
    ∀ (fuel attempt : ℕ),
      backend.stnGo mean sigma mn mx N attempt fuel = max mn (min mx mean) := by
  intro fuel
  induction fuel with
  | zero => intro a; rfl
  | succ f ih =>
    intro a
    simp only [backend.stnGo]
    rw [if_pos (h a)]
    exact ih (a + 1)

lemma stn_reject_all (mean sigma mn mx : ℚ) (N : ℕ → ℚ)
    (h : ∀ j, mean + sigma * N j < mn ∨ mx < mean + sigma * N j) :
    backend.sampleTruncatedNormal mean sigma mn mx N = max mn (min mx mean) :=
  stnGo_reject_all mean sigma mn mx N h 100 0

lemma stnGo_congr (mean sigma mn mx : ℚ) (N Nx : ℕ → ℚ) :
    ∀ (fuel attempt : ℕ), (∀ j, attempt ≤ j → j < attempt + fuel → N j = Nx j) →
      backend.stnGo mean sigma mn mx N attempt fuel =
        backend.stnGo mean sigma mn mx Nx attempt fuel := by
  intro fuel
  induction fuel with
  | zero => intro a _; rfl
  | succ f ih =>
    intro a h
    have ha : N a = Nx a := h a le_rfl (by omega)
    simp only [backend.stnGo, ha]
    split_ifs with hc
    · exact ih (a + 1) fun j hj1 hj2 => h j (by omega) (by omega)
    · rfl

lemma backend_stnDrawsGo_le (mean sigma mn mx : ℚ) (N : ℕ → ℚ) :
    ∀ (fuel attempt : ℕ), backend.stnDrawsGo mean sigma mn mx N attempt fuel ≤ fuel + 1 := by
  intro fuel
  induction fuel with
  | zero => intro a; exact le_rfl
  | succ f ih =>
    intro a
    simp only [backend.stnDrawsGo]
    split_ifs with hc
    · have := ih (a + 1); omega
    · omega

lemma worker_stnDrawsGo_le (mean sigma mn mx : ℚ) (N : ℕ → ℚ) :
    ∀ (fuel attempt : ℕ), worker.stnDrawsGo mean sigma mn mx N attempt fuel ≤ fuel := by
  intro fuel
  induction fuel with
  | zero => intro a; exact le_rfl
  | succ f ih =>
    intro a
    simp only [worker.stnDrawsGo]
    split_ifs with hc
    · omega
    · have := ih (a + 1); omega

lemma backend_stnDrawsGo_reject_all (mean sigma mn mx : ℚ) (N : ℕ → ℚ)
    (h : ∀ j, mean + sigma * N j < mn ∨ mx < mean + sigma * N j) :
    ∀ (fuel attempt : ℕ), backend.stnDrawsGo mean sigma mn mx N attempt fuel = fuel + 1 := by
  intro fuel
  induction fuel with
  | zero => intro a; rfl
  | succ f ih =>
    intro a
    simp only [backend.stnDrawsGo]
    rw [if_pos (h a), ih (a + 1)]
    omega

lemma fdTargetOf_eq : @backend.fdTargetOf = @worker.fdTargetOf := rfl

lemma trialFor_eq (p : Params) (gN pN : ℕ → ℕ → ℚ) (i : ℕ) :
    backend.trialFor p gN pN i = worker.trialFor p gN pN i := by
  simp only [backend.trialFor, worker.trialFor, stn_eq, fdTargetOf_eq]

lemma simTrials_eq (p : Params) (gN pN : ℕ → ℕ → ℚ) :
    backend.simTrials p gN pN = worker.simTrials p gN pN := by
  unfold backend.simTrials worker.simTrials
  rw [funext (trialFor_eq p gN pN)]

lemma summaryOf_eq : @backend.summaryOf = @worker.summaryOf := rfl

lemma scenariosOf_eq : @backend.scenariosOf = @worker.scenariosOf := rfl

lemma sensitivityOf_eq : @backend.sensitivityOf = @worker.sensitivityOf := rfl

lemma hist_shape_eq {α : Type} [LinearOrderedField α] [FloorRing α]
    (values : List α) (numBins : ℕ) :
    (backend.buildHistogram values numBins).map binShape =
      (worker.buildHistogram values numBins).map binShape := by
  have hmin : @worker.listMin = @backend.listMin := rfl
  have hmax : @worker.listMax = @backend.listMax := rfl
  have hidx : @worker.histIdx = @backend.histIdx := rfl
  simp only [backend.buildHistogram, worker.buildHistogram, hmin, hmax, hidx]
  split_ifs with h
  · rfl
  · rfl

lemma hist_eq_of_nondegenerate {α : Type} [LinearOrderedField α] [FloorRing α]
    (values : List α) (numBins : ℕ)
    (hne : backend.listMin values ≠ backend.listMax values) (hb : numBins ≠ 0) :
    backend.buildHistogram values numBins = worker.buildHistogram values numBins := by
  have hmin : @worker.listMin = @backend.listMin := rfl
  have hmax : @worker.listMax = @backend.listMax := rfl
  have hidx : @worker.histIdx = @backend.histIdx := rfl
  have h : (backend.listMax values - backend.listMin values) / (numBins : α) ≠ 0 := by
    rw [div_ne_zero_iff, sub_ne_zero]
    exact ⟨fun hc => hne hc.symm, Nat.cast_ne_zero.mpr hb⟩
  simp only [backend.buildHistogram, worker.buildHistogram, hmin, hmax, hidx]
  rw [if_neg h, if_neg h]

lemma bumpCount_length {α : Type} :
    ∀ (bins : List (Bin α)) (n : ℕ), (bumpCount bins n).length = bins.length := by
  intro bins
  induction bins with
  | nil => intro n; rfl
  | cons b bs ih =>
    intro n
    cases n with
    | zero => rfl
    | succ m => simpa [bumpCount] using ih m

lemma bumpCount_sum {α : Type} :
    ∀ (bins : List (Bin α)) (n : ℕ), n < bins.length →
      ((bumpCount bins n).map Bin.count).sum = (bins.map Bin.count).sum + 1 := by
  intro bins
  induction bins with
  | nil => intro n h; simp at h
  | cons b bs ih =>
    intro n h
    cases n with
    | zero => simp [bumpCount]; omega
    | succ m =>
      have hm : m < bs.length := by simpa using h
      simp only [bumpCount, List.map_cons, List.sum_cons, ih m hm]
      omega

lemma foldl_bumpCount_sum {α : Type} (idxf : α → ℕ) :
    ∀ (values : List α) (bins : List (Bin α)), (∀ v, idxf v < bins.length) →
      (((values.foldl (fun bs v => bumpCount bs (idxf v)) bins)).map Bin.count).sum =
        (bins.map Bin.count).sum + values.length := by
  intro values
  induction values with
  | nil => intro bins _; simp
  | cons v vs ih =>
    intro bins h
    simp only [List.foldl_cons, List.length_cons]
    rw [ih (bumpCount bins (idxf v)) fun w => by rw [bumpCount_length]; exact h w]
    rw [bumpCount_sum bins (idxf v) (h v)]
    omega

lemma histIdx_lt {α : Type} [LinearOrderedField α] [FloorRing α]
    (mn bw : α) (numBins : ℕ) (hb : 1 ≤ numBins) (v : α) :
    backend.histIdx mn bw numBins v < numBins := by
  simp only [backend.histIdx]
  split_ifs with h1 h2 h3 <;> omega

lemma worker_histIdx_eq : @worker.histIdx = @backend.histIdx := rfl

lemma stnGo_reject_within (mean sigma mn mx : ℚ) (N : ℕ → ℚ) :
    ∀ (fuel attempt : ℕ),
      (∀ j, attempt ≤ j → j < attempt + fuel →
        mean + sigma * N j < mn ∨ mx < mean + sigma * N j) →
      backend.stnGo mean sigma mn mx N attempt fuel = max mn (min mx mean) := by
  intro fuel
  induction fuel with
  | zero => intro a _; rfl
  | succ f ih =>
    intro a h
    simp only [backend.stnGo]
    rw [if_pos (h a le_rfl (by omega))]
    exact ih (a + 1) fun j hj1 hj2 => h j (by omega) (by omega)

lemma collect_zip (eh : List EpsEntry) :
    backend.collectGrowthRates eh = (eh.zip eh.tail).filterMap growthRateOfPair := by
  induction eh with
  | nil => rfl
  | cons a t ih =>
    cases t with
    | nil => rfl
    | cons b rest =>
      show backend.collectGrowthRates (a :: b :: rest) =
        ((a, b) :: (b :: rest).zip rest).filterMap growthRateOfPair
      rw [List.filterMap_cons]
      have htail : (b :: rest).zip rest = (b :: rest).zip (b :: rest).tail := rfl
      rcases ha : a.eps with _ | prev <;> rcases hb : b.eps with _ | curr
      · simp only [backend.collectGrowthRates, ha, hb, growthRateOfPair, htail, ih]
      · simp only [backend.collectGrowthRates, ha, hb, growthRateOfPair, htail, ih]
      · simp only [backend.collectGrowthRates, ha, hb, growthRateOfPair, htail, ih]
      · simp only [backend.collectGrowthRates, ha, hb, growthRateOfPair, htail, ih]
        split_ifs with hp
        · rfl
        · rfl

/-- C2: for all mean, sigma, min, max with min ≤ max and every draw
sequence, both modules' `sampleTruncatedNormal` return a value inside
`[min, max]`; with sigma = 0 the returned value is `mean` itself when
`mean ∈ [min, max]` and the clamp `max(min, min(max, mean))` otherwise. -/
theorem c2_truncated_normal_range (mean sigma mn mx : ℚ) (h : mn ≤ mx) (normals : ℕ → ℚ) :
    (mn ≤ backend.sampleTruncatedNormal mean sigma mn mx normals ∧
      backend.sampleTruncatedNormal mean sigma mn mx normals ≤ mx) ∧
    (mn ≤ worker.sampleTruncatedNormal mean sigma mn mx normals ∧
      worker.sampleTruncatedNormal mean sigma mn mx normals ≤ mx) ∧
    (sigma = 0 →
      backend.sampleTruncatedNormal mean sigma mn mx normals =
        if mn ≤ mean ∧ mean ≤ mx then mean else max mn (min mx mean)) ∧
    (sigma = 0 →
      worker.sampleTruncatedNormal mean sigma mn mx normals =
        if mn ≤ mean ∧ mean ≤ mx then mean else max mn (min mx mean)) := by
  refine ⟨stn_mem mean sigma mn mx normals h, ?_, ?_, ?_⟩
  · rw [← stn_eq]
    exact stn_mem mean sigma mn mx normals h
  · rintro rfl
    exact stn_sigma_zero mean mn mx normals
  · rintro rfl
    rw [← stn_eq]
    exact stn_sigma_zero mean mn mx normals

/-- C2 witness: at `mean = 20, sigma = 0, [min, max] = [0, 10]` the theorem
applies; the sampler stays inside `[0, 10]` and returns the clamp. -/
theorem c2_truncated_normal_range_witness :
    (0 : ℚ) ≤ 10 ∧
    (((0 : ℚ) ≤ backend.sampleTruncatedNormal 20 0 0 10 (zeroDraws 0) ∧
      backend.sampleTruncatedNormal 20 0 0 10 (zeroDraws 0) ≤ 10) ∧
    ((0 : ℚ) ≤ worker.sampleTruncatedNormal 20 0 0 10 (zeroDraws 0) ∧
      worker.sampleTruncatedNormal 20 0 0 10 (zeroDraws 0) ≤ 10) ∧
    ((0 : ℚ) = 0 →
      backend.sampleTruncatedNormal 20 0 0 10 (zeroDraws 0) =
        if (0 : ℚ) ≤ 20 ∧ (20 : ℚ) ≤ 10 then 20 else max 0 (min 10 20)) ∧
    ((0 : ℚ) = 0 →
      worker.sampleTruncatedNormal 20 0 0 10 (zeroDraws 0) =
        if (0 : ℚ) ≤ 20 ∧ (20 : ℚ) ≤ 10 then 20 else max 0 (min 10 20))) :=
  ⟨by decide, c2_truncated_normal_range 20 0 0 10 (by decide) (zeroDraws 0)⟩

/-- C9 (amended): both samplers terminate; the worker evaluates the draw
expression at most 100 times but the backend up to 101 times (its final
candidate is computed and discarded without a range check); the returned
value depends only on the first 100 draws; and when every one of the first
100 candidates misses `[min, max]` both return the clamp
`max(min, min(max, mean))`. -/
theorem c9_draw_budget (mean sigma mn mx : ℚ) (normals : ℕ → ℚ) :
    worker.sampleTruncatedNormalDraws mean sigma mn mx normals ≤ 100 ∧
    backend.sampleTruncatedNormalDraws mean sigma mn mx normals ≤ 101 ∧
    (∀ normals2 : ℕ → ℚ, (∀ j, j < 100 → normals j = normals2 j) →
      backend.sampleTruncatedNormal mean sigma mn mx normals =
        backend.sampleTruncatedNormal mean sigma mn mx normals2) ∧
    ((∀ j, j < 100 → mean + sigma * normals j < mn ∨ mx < mean + sigma * normals j) →
      backend.sampleTruncatedNormal mean sigma mn mx normals = max mn (min mx mean) ∧
      worker.sampleTruncatedNormal mean sigma mn mx normals = max mn (min mx mean)) := by
  refine ⟨worker_stnDrawsGo_le mean sigma mn mx normals 100 0,
    backend_stnDrawsGo_le mean sigma mn mx normals 100 0, ?_, ?_⟩
  · intro normals2 h
    exact stnGo_congr mean sigma mn mx normals normals2 100 0 fun j hj1 hj2 => h j (by omega)
  · intro h
    have hb : backend.sampleTruncatedNormal mean sigma mn mx normals = max mn (min mx mean) :=
      stnGo_reject_within mean sigma mn mx normals 100 0 fun j hj1 hj2 => h j (by omega)
    exact ⟨hb, by rw [← stn_eq]; exact hb⟩

/-- C9 witness: with `mean = 10` outside `[0, 1]` and `sigma = 0` every
candidate misses, so the theorem's fallback clause fires and both samplers
return the clamp. -/
theorem c9_draw_budget_witness :
    (∀ j : ℕ, j < 100 →
      (10 : ℚ) + 0 * zeroDraws 0 j < 0 ∨ (1 : ℚ) < 10 + 0 * zeroDraws 0 j) ∧
    (backend.sampleTruncatedNormal 10 0 0 1 (zeroDraws 0) = max 0 (min 1 10) ∧
      worker.sampleTruncatedNormal 10 0 0 1 (zeroDraws 0) = max 0 (min 1 10)) :=
  have hrej : ∀ j : ℕ, j < 100 →
      (10 : ℚ) + 0 * zeroDraws 0 j < 0 ∨ (1 : ℚ) < 10 + 0 * zeroDraws 0 j :=
    fun j _ => Or.inr (by simp only [zeroDraws, zero_mul, add_zero]; decide)
  ⟨hrej, (c9_draw_budget 10 0 0 1 (zeroDraws 0)).2.2.2 hrej⟩

/-- C9 counterexample: the claim's "at most 100 draws" fails on the
backend: with `mean = 10` outside `[0, 1]` and `sigma = 0` its do-while
loop evaluates `mean + sigma * standardNormal()` 101 times. -/
theorem c9_backend_draw_count_counterexample :
    backend.sampleTruncatedNormalDraws 10 0 0 1 (zeroDraws 0) = 101 ∧
    ¬ backend.sampleTruncatedNormalDraws 10 0 0 1 (zeroDraws 0) ≤ 100 := by
  have h : ∀ j : ℕ, (10 : ℚ) + 0 * zeroDraws 0 j < 0 ∨ (1 : ℚ) < 10 + 0 * zeroDraws 0 j :=
    fun j => Or.inr (by simp only [zeroDraws, zero_mul, add_zero]; decide)
  have h101 : backend.sampleTruncatedNormalDraws 10 0 0 1 (zeroDraws 0) = 101 :=
    backend_stnDrawsGo_reject_all 10 0 0 1 (zeroDraws 0) h 100 0
  exact ⟨h101, by omega⟩

/-- C6: on a history with at least 2 entries yielding at least 2 valid
growth rates, `computeEPSGrowthDistribution` collects exactly the
consecutive-pair rates `(curr - prev)/|prev|` (skipping pairs whose prior
EPS is not positive), and returns the median as `meanGrowth`, the floored
`max(robustSigma, 0.10)` as `sigmaGrowth`, with a non-null warning exactly
when the pre-floor `robustSigma` is below `0.10`. -/
theorem c6_growth_distribution_formula (eh : List EpsEntry)
    (h2 : 2 ≤ eh.length) (hr : 2 ≤ (backend.collectGrowthRates eh).length) :
    backend.collectGrowthRates eh = (eh.zip eh.tail).filterMap growthRateOfPair ∧
    backend.computeEPSGrowthDistribution (some eh) =
      { meanGrowth := backend.median (backend.collectGrowthRates eh),
        sigmaGrowth := max (backend.robustSigma (backend.collectGrowthRates eh)) (1/10),
        growthRates := backend.collectGrowthRates eh,
        dataPoints := (backend.collectGrowthRates eh).length,
        warning := if backend.robustSigma (backend.collectGrowthRates eh) < 1/10 then
          some (.sigmaFloored (backend.robustSigma (backend.collectGrowthRates eh))) else none } ∧
    ((backend.computeEPSGrowthDistribution (some eh)).warning ≠ none ↔
      backend.robustSigma (backend.collectGrowthRates eh) < 1/10) := by
  have heq : backend.computeEPSGrowthDistribution (some eh) =
      { meanGrowth := backend.median (backend.collectGrowthRates eh),
        sigmaGrowth := max (backend.robustSigma (backend.collectGrowthRates eh)) (1/10),
        growthRates := backend.collectGrowthRates eh,
        dataPoints := (backend.collectGrowthRates eh).length,
        warning := if backend.robustSigma (backend.collectGrowthRates eh) < 1/10 then
          some (.sigmaFloored (backend.robustSigma (backend.collectGrowthRates eh))) else none } := by
    simp only [backend.computeEPSGrowthDistribution]
    rw [if_neg (by omega), if_neg (by omega)]
  refine ⟨collect_zip eh, heq, ?_⟩
  rw [heq]
  split_ifs with hs
  · simpa using hs
  · simpa using hs

/-- C6 witness: the history `100 → 110 → 121` yields the two rates
`[1/10, 1/10]`, so the non-default branch applies. -/
theorem c6_growth_distribution_formula_witness :
    2 ≤ epsHistW.length ∧ 2 ≤ (backend.collectGrowthRates epsHistW).length ∧
    (backend.collectGrowthRates epsHistW =
        (epsHistW.zip epsHistW.tail).filterMap growthRateOfPair ∧
      backend.computeEPSGrowthDistribution (some epsHistW) =
        { meanGrowth := backend.median (backend.collectGrowthRates epsHistW),
          sigmaGrowth := max (backend.robustSigma (backend.collectGrowthRates epsHistW)) (1/10),
          growthRates := backend.collectGrowthRates epsHistW,
          dataPoints := (backend.collectGrowthRates epsHistW).length,
          warning := if backend.robustSigma (backend.collectGrowthRates epsHistW) < 1/10 then
            some (.sigmaFloored (backend.robustSigma (backend.collectGrowthRates epsHistW)))
          else none } ∧
      ((backend.computeEPSGrowthDistribution (some epsHistW)).warning ≠ none ↔
        backend.robustSigma (backend.collectGrowthRates epsHistW) < 1/10)) :=
  ⟨by decide, by decide, c6_growth_distribution_formula epsHistW (by decide) (by decide)⟩

/-- C7: `computePEDistribution` on a list: with fewer than 3 raw entries or
fewer than 3 entries surviving the `(0, 200)` filter it returns the default
`meanPE = 25, sigmaPE = 8` with a non-null warning; otherwise it returns
`median(valid)` and `max(robustSigma(valid), 3.0)`, with a non-null warning
exactly when the pre-floor `robustSigma(valid)` is below `3.0`. -/
theorem c7_pe_distribution_branches (pes : List ℚ) :
    ((pes.length < 3 ∨ (pes.filter fun pe => decide (0 < pe ∧ pe < 200)).length < 3) →
      (backend.computePEDistribution (some pes)).meanPE = 25 ∧
      (backend.computePEDistribution (some pes)).sigmaPE = 8 ∧
      (backend.computePEDistribution (some pes)).warning ≠ none) ∧
    (3 ≤ pes.length → 3 ≤ (pes.filter fun pe => decide (0 < pe ∧ pe < 200)).length →
      (backend.computePEDistribution (some pes)).meanPE =
        backend.median (pes.filter fun pe => decide (0 < pe ∧ pe < 200)) ∧
      (backend.computePEDistribution (some pes)).sigmaPE =
        max (backend.robustSigma (pes.filter fun pe => decide (0 < pe ∧ pe < 200))) 3 ∧
      ((backend.computePEDistribution (some pes)).warning ≠ none ↔
        backend.robustSigma (pes.filter fun pe => decide (0 < pe ∧ pe < 200)) < 3)) := by
  constructor
  · intro hor
    by_cases h3 : pes.length < 3
    · simp only [backend.computePEDistribution]
      rw [if_pos h3]
      exact ⟨rfl, rfl, by simp⟩
    · have hv : (pes.filter fun pe => decide (0 < pe ∧ pe < 200)).length < 3 := by
        rcases hor with h | h
        · exact absurd h h3
        · exact h
      simp only [backend.computePEDistribution]
      rw [if_neg h3, if_pos hv]
      exact ⟨rfl, rfl, by simp⟩
  · intro h3 hv
    have heq : backend.computePEDistribution (some pes) =
        { meanPE := backend.median (pes.filter fun pe => decide (0 < pe ∧ pe < 200)),
          sigmaPE := max (backend.robustSigma (pes.filter fun pe => decide (0 < pe ∧ pe < 200))) 3,
          peValues := pes.filter fun pe => decide (0 < pe ∧ pe < 200),
          dataPoints := (pes.filter fun pe => decide (0 < pe ∧ pe < 200)).length,
          warning := if backend.robustSigma (pes.filter fun pe => decide (0 < pe ∧ pe < 200)) < 3
            then some (.sigmaFloored
              (backend.robustSigma (pes.filter fun pe => decide (0 < pe ∧ pe < 200))))
            else none } := by
      simp only [backend.computePEDistribution]
      rw [if_neg (by omega), if_neg (by omega)]
    rw [heq]
    refine ⟨rfl, rfl, ?_⟩
    split_ifs with hs
    · simpa using hs
    · simpa using hs

/-- C7 witness: `[20, 20, 20]` survives the filter with 3 entries;
`robustSigma = 0 < 3`, so the floored branch with a warning applies. -/
theorem c7_pe_distribution_branches_witness :
    3 ≤ ([20, 20, 20] : List ℚ).length ∧
    3 ≤ (([20, 20, 20] : List ℚ).filter fun pe => decide (0 < pe ∧ pe < 200)).length ∧
    ((backend.computePEDistribution (some [20, 20, 20])).meanPE =
      backend.median (([20, 20, 20] : List ℚ).filter fun pe => decide (0 < pe ∧ pe < 200)) ∧
    (backend.computePEDistribution (some [20, 20, 20])).sigmaPE =
      max (backend.robustSigma
        (([20, 20, 20] : List ℚ).filter fun pe => decide (0 < pe ∧ pe < 200))) 3 ∧
    ((backend.computePEDistribution (some [20, 20, 20])).warning ≠ none ↔
      backend.robustSigma
        (([20, 20, 20] : List ℚ).filter fun pe => decide (0 < pe ∧ pe < 200)) < 3)) :=
  ⟨by decide, by decide, (c7_pe_distribution_branches [20, 20, 20]).2 (by decide) (by decide)⟩

/-- C8: on insufficient data — a `null` history, or any list whose length
is below 2 or which yields fewer than 2 valid growth rates —
`computeEPSGrowthDistribution` (a total function, so it never throws)
returns exactly `meanGrowth = 0.10`, `sigmaGrowth = 0.15` and a non-null
warning. -/
theorem c8_growth_insufficient_default :
    ((backend.computeEPSGrowthDistribution none).meanGrowth = 1/10 ∧
      (backend.computeEPSGrowthDistribution none).sigmaGrowth = 15/100 ∧
      (backend.computeEPSGrowthDistribution none).warning ≠ none) ∧
    ∀ eh : List EpsEntry, (eh.length < 2 ∨ (backend.collectGrowthRates eh).length < 2) →
      (backend.computeEPSGrowthDistribution (some eh)).meanGrowth = 1/10 ∧
      (backend.computeEPSGrowthDistribution (some eh)).sigmaGrowth = 15/100 ∧
      (backend.computeEPSGrowthDistribution (some eh)).warning ≠ none := by
  refine ⟨⟨rfl, rfl, by simp [backend.computeEPSGrowthDistribution]⟩, ?_⟩
  intro eh hor
  by_cases h2 : eh.length < 2
  · simp only [backend.computeEPSGrowthDistribution]
    rw [if_pos h2]
    exact ⟨rfl, rfl, by simp⟩
  · have hrr : (backend.collectGrowthRates eh).length < 2 := by
      rcases hor with h | h
      · exact absurd h h2
      · exact h
    simp only [backend.computeEPSGrowthDistribution]
    rw [if_neg h2, if_pos hrr]
    exact ⟨rfl, rfl, by simp⟩

/-- C8 witness: the empty history takes the insufficient-data branch. -/
theorem c8_growth_insufficient_default_witness :
    (([] : List EpsEntry).length < 2 ∨
      (backend.collectGrowthRates ([] : List EpsEntry)).length < 2) ∧
    ((backend.computeEPSGrowthDistribution (some [])).meanGrowth = 1/10 ∧
      (backend.computeEPSGrowthDistribution (some [])).sigmaGrowth = 15/100 ∧
      (backend.computeEPSGrowthDistribution (some [])).warning ≠ none) :=
  ⟨Or.inl (by decide), c8_growth_insufficient_default.2 [] (Or.inl (by decide))⟩

lemma map_count_comm {α : Type} (l : List (Bin α)) :
    l.map Bin.count = (l.map binShape).map fun t => t.2.2.1 := by
  rw [List.map_map]
  rfl

lemma sum_counts_zero_bins {α : Type} (f : ℕ → Bin α) (n : ℕ) (h : ∀ i, (f i).count = 0) :
    (((List.range n).map f).map Bin.count).sum = 0 := by
  rw [List.map_map]
  have hc : (Bin.count ∘ f) = fun _ => 0 := funext fun i => h i
  rw [hc]
  simp

/-- C10: for every non-empty value list and `numBins ≥ 1`, the bin counts
of both modules' `buildHistogram` sum to the number of values; in the
degenerate all-values-identical case a single bin is returned carrying
`count = length` and `frequency = 1`. -/
theorem c10_histogram_count_sum (values : List ℚ) (numBins : ℕ)
    (hne : values ≠ []) (hb : 1 ≤ numBins) :
    ((backend.buildHistogram values numBins).map Bin.count).sum = values.length ∧
    ((worker.buildHistogram values numBins).map Bin.count).sum = values.length ∧
    (backend.listMin values = backend.listMax values →
      backend.buildHistogram values numBins =
        [{ binStart := backend.listMin values, binEnd := backend.listMin values,
           binMid := none, count := values.length, frequency := 1 }] ∧
      worker.buildHistogram values numBins =
        [{ binStart := backend.listMin values, binEnd := backend.listMin values,
           binMid := some (backend.listMin values), count := values.length, frequency := 1 }]) := by
  have hback : ((backend.buildHistogram values numBins).map Bin.count).sum = values.length := by
    by_cases hdeg : (backend.listMax values - backend.listMin values) / (numBins : ℚ) = 0
    · simp only [backend.buildHistogram]
      rw [if_pos hdeg]
      simp
    · simp only [backend.buildHistogram]
      rw [if_neg hdeg]
      rw [List.map_map]
      have hcomp : (Bin.count ∘ fun b : Bin ℚ =>
          { b with frequency := (b.count : ℚ) / (values.length : ℚ) }) = Bin.count := rfl
      rw [hcomp]
      rw [foldl_bumpCount_sum _ values _ fun v => by
        rw [List.length_map, List.length_range]
        exact histIdx_lt (backend.listMin values)
          ((backend.listMax values - backend.listMin values) / (numBins : ℚ)) numBins hb v]
      rw [sum_counts_zero_bins _ numBins fun i => rfl]
      omega
  refine ⟨hback, ?_, ?_⟩
  · rw [map_count_comm, ← hist_shape_eq, ← map_count_comm]
    exact hback
  · intro hmm
    have hdeg : (backend.listMax values - backend.listMin values) / (numBins : ℚ) = 0 := by
      rw [← hmm, sub_self, zero_div]
    constructor
    · simp only [backend.buildHistogram]
      rw [if_pos hdeg]
    · have hwmin : @worker.listMin = @backend.listMin := rfl
      have hwmax : @worker.listMax = @backend.listMax := rfl
      simp only [worker.buildHistogram, hwmin, hwmax]
      rw [if_pos hdeg, hmm]

/-- C10 witness: two distinct values and one bin. -/
theorem c10_histogram_count_sum_witness :
    ([1, 2] : List ℚ) ≠ [] ∧ 1 ≤ 1 ∧
    (((backend.buildHistogram ([1, 2] : List ℚ) 1).map Bin.count).sum = 2 ∧
      ((worker.buildHistogram ([1, 2] : List ℚ) 1).map Bin.count).sum = 2) :=
  ⟨by decide, le_rfl,
    ⟨(c10_histogram_count_sum [1, 2] 1 (by decide) le_rfl).1,
     (c10_histogram_count_sum [1, 2] 1 (by decide) le_rfl).2.1⟩⟩

/-- C3 (amended): `iqrSigma` takes its quartiles by direct floor indexing —
`sorted[⌊n·0.25⌋]` and `sorted[⌊n·0.75⌋]` — not through the interpolating
`percentile` function; the two recipes do coincide whenever
`n ≡ 1 (mod 4)`, because then both interpolation indices are integers. -/
theorem c3_iqr_sigma_floor_indexed (values : List ℚ) :
    backend.iqrSigma values =
      ((backend.sortAsc values).getD (3 * values.length / 4) 0 -
        (backend.sortAsc values).getD (values.length / 4) 0) / (1349 / 1000) ∧
    worker.iqrSigma values =
      ((backend.sortAsc values).getD (3 * values.length / 4) 0 -
        (backend.sortAsc values).getD (values.length / 4) 0) / (1349 / 1000) ∧
    (values.length % 4 = 1 → backend.iqrSigma values = iqrSigmaSpec values) := by
  refine ⟨rfl, rfl, ?_⟩
  intro h4
  obtain ⟨k, hk⟩ : ∃ k, values.length = 4 * k + 1 := ⟨values.length / 4, by omega⟩
  have h25 : backend.percentile values 25 = (backend.sortAsc values).getD k 0 := by
    simp only [backend.percentile]
    have hidx : (25 : ℚ) / 100 * ((values.length : ℚ) - 1) = ((k : ℕ) : ℚ) := by
      rw [hk]; push_cast; ring
    rw [hidx, Int.floor_natCast, Int.ceil_natCast, if_pos rfl, Int.toNat_ofNat]
  have h75 : backend.percentile values 75 = (backend.sortAsc values).getD (3 * k) 0 := by
    simp only [backend.percentile]
    have hidx : (75 : ℚ) / 100 * ((values.length : ℚ) - 1) = ((3 * k : ℕ) : ℚ) := by
      rw [hk]; push_cast; ring
    rw [hidx, Int.floor_natCast, Int.ceil_natCast, if_pos rfl, Int.toNat_ofNat]
  unfold iqrSigmaSpec
  rw [h25, h75]
  simp only [backend.iqrSigma]
  rw [show values.length / 4 = k by omega, show 3 * values.length / 4 = 3 * k by omega]

/-- C3 witness: on the 5-element list `[0, 1, 2, 3, 4]` (where `5 ≡ 1 mod
4`) the floor-indexed `iqrSigma` agrees with the interpolating recipe. -/
theorem c3_iqr_sigma_floor_indexed_witness :
    ([0, 1, 2, 3, 4] : List ℚ).length % 4 = 1 ∧
    backend.iqrSigma ([0, 1, 2, 3, 4] : List ℚ) = iqrSigmaSpec [0, 1, 2, 3, 4] :=
  ⟨by decide, (c3_iqr_sigma_floor_indexed [0, 1, 2, 3, 4]).2.2 (by decide)⟩

/-- C3 counterexample: on `[0, 1, 2, 3]` the source's `iqrSigma` gives
`(3 - 1) / 1.349` while the claim's interpolating-percentile recipe gives
`(2.25 - 0.75) / 1.349`; they differ. -/
theorem c3_interpolation_counterexample :
    backend.iqrSigma ([0, 1, 2, 3] : List ℚ) ≠ iqrSigmaSpec [0, 1, 2, 3] := by
  have hs : backend.sortAsc ([0, 1, 2, 3] : List ℚ) = [0, 1, 2, 3] := by decide
  have hiq : backend.iqrSigma ([0, 1, 2, 3] : List ℚ) = ((3 : ℚ) - 1) / (1349 / 1000) := by
    simp only [backend.iqrSigma]
    rw [hs]
    rw [show 3 * ([0, 1, 2, 3] : List ℚ).length / 4 = 3 by decide,
      show ([0, 1, 2, 3] : List ℚ).length / 4 = 1 by decide]
    rw [show List.getD ([0, 1, 2, 3] : List ℚ) 3 0 = 3 by decide,
      show List.getD ([0, 1, 2, 3] : List ℚ) 1 0 = 1 by decide]
  have h25 : backend.percentile ([0, 1, 2, 3] : List ℚ) 25 = 3 / 4 := by
    simp only [backend.percentile]
    rw [hs]
    have hidx : (25 : ℚ) / 100 * (((([0, 1, 2, 3] : List ℚ)).length : ℚ) - 1) = 3 / 4 := by
      norm_num
    rw [hidx, show ⌊(3 / 4 : ℚ)⌋ = 0 from Int.floor_eq_iff.mpr (by norm_num),
      show ⌈(3 / 4 : ℚ)⌉ = 1 from Int.ceil_eq_iff.mpr (by norm_num)]
    rw [if_neg (by decide)]
    rw [show ((0 : ℤ).toNat) = 0 from rfl, show ((1 : ℤ).toNat) = 1 from rfl]
    rw [show List.getD ([0, 1, 2, 3] : List ℚ) 0 0 = 0 by decide,
      show List.getD ([0, 1, 2, 3] : List ℚ) 1 0 = 1 by decide]
    push_cast
    ring
  have h75 : backend.percentile ([0, 1, 2, 3] : List ℚ) 75 = 9 / 4 := by
    simp only [backend.percentile]
    rw [hs]
    have hidx : (75 : ℚ) / 100 * (((([0, 1, 2, 3] : List ℚ)).length : ℚ) - 1) = 9 / 4 := by
      norm_num
    rw [hidx, show ⌊(9 / 4 : ℚ)⌋ = 2 from Int.floor_eq_iff.mpr (by norm_num),
      show ⌈(9 / 4 : ℚ)⌉ = 3 from Int.ceil_eq_iff.mpr (by norm_num)]
    rw [if_neg (by decide)]
    rw [show ((2 : ℤ).toNat) = 2 from rfl, show ((3 : ℤ).toNat) = 3 from rfl]
    rw [show List.getD ([0, 1, 2, 3] : List ℚ) 2 0 = 2 by decide,
      show List.getD ([0, 1, 2, 3] : List ℚ) 3 0 = 3 by decide]
    push_cast
    ring
  rw [hiq]
  unfold iqrSigmaSpec
  rw [h25, h75]
  norm_num


/-- C1 (amended): for any parameters with `price0 > 0`, integer `years > 0`,
a positive number of simulations, and ordered bounds
`growthMin ≤ growthMax` and `peMin ≤ peMax`, and for every draw sequence,
every trial of either module's `runSimulation` satisfies
`epsT = eps0·(1+g)^years`, `priceT = epsT·peT`,
`cagr = (priceT/price0)^(1/years) − 1`, `g ∈ [growthMin, growthMax]` and
`peT ∈ [peMin, peMax]`. -/
theorem c1_trial_invariants (p : Params) (gN pN : ℕ → ℕ → ℚ)
    (hp : 0 < p.price0) (hy : 0 < p.years) (hn : 0 < p.numSimulations)
    (hg : p.growthMin ≤ p.growthMax) (hpe : p.peMin ≤ p.peMax) :
    (∀ t ∈ backend.simTrials p gN pN,
      t.epsT = p.eps0 * (1 + t.g) ^ p.years ∧
      t.priceT = t.epsT * t.peT ∧
      t.cagr = ((t.priceT : ℝ) / (p.price0 : ℝ)) ^ ((1 : ℝ) / (p.years : ℝ)) - 1 ∧
      (p.growthMin ≤ t.g ∧ t.g ≤ p.growthMax) ∧
      (p.peMin ≤ t.peT ∧ t.peT ≤ p.peMax)) ∧
    (∀ t ∈ worker.simTrials p gN pN,
      t.epsT = p.eps0 * (1 + t.g) ^ p.years ∧
      t.priceT = t.epsT * t.peT ∧
      t.cagr = ((t.priceT : ℝ) / (p.price0 : ℝ)) ^ ((1 : ℝ) / (p.years : ℝ)) - 1 ∧
      (p.growthMin ≤ t.g ∧ t.g ≤ p.growthMax) ∧
      (p.peMin ≤ t.peT ∧ t.peT ≤ p.peMax)) := by
  have hB : ∀ t ∈ backend.simTrials p gN pN,
      t.epsT = p.eps0 * (1 + t.g) ^ p.years ∧
      t.priceT = t.epsT * t.peT ∧
      t.cagr = ((t.priceT : ℝ) / (p.price0 : ℝ)) ^ ((1 : ℝ) / (p.years : ℝ)) - 1 ∧
      (p.growthMin ≤ t.g ∧ t.g ≤ p.growthMax) ∧
      (p.peMin ≤ t.peT ∧ t.peT ≤ p.peMax) := by
    intro t ht
    obtain ⟨i, _, rfl⟩ := List.mem_map.mp ht
    exact ⟨rfl, rfl, rfl,
      stn_mem p.meanGrowth p.sigmaGrowth p.growthMin p.growthMax (gN i) hg,
      stn_mem p.meanPE p.sigmaPE p.peMin p.peMax (pN i) hpe⟩
  exact ⟨hB, by rw [← simTrials_eq]; exact hB⟩

/-- C1 witness: one trial under well-formed parameters with an all-zero
draw stream; the first trial satisfies all invariants. -/
theorem c1_trial_invariants_witness :
    (0 < paramsA.price0 ∧ 0 < paramsA.years ∧ 0 < paramsA.numSimulations ∧
      paramsA.growthMin ≤ paramsA.growthMax ∧ paramsA.peMin ≤ paramsA.peMax) ∧
    ((backend.trialFor paramsA zeroDraws zeroDraws 0).epsT =
        paramsA.eps0 * (1 + (backend.trialFor paramsA zeroDraws zeroDraws 0).g) ^ paramsA.years ∧
      (backend.trialFor paramsA zeroDraws zeroDraws 0).priceT =
        (backend.trialFor paramsA zeroDraws zeroDraws 0).epsT *
          (backend.trialFor paramsA zeroDraws zeroDraws 0).peT ∧
      (backend.trialFor paramsA zeroDraws zeroDraws 0).cagr =
        (((backend.trialFor paramsA zeroDraws zeroDraws 0).priceT : ℝ) /
            (paramsA.price0 : ℝ)) ^ ((1 : ℝ) / (paramsA.years : ℝ)) - 1 ∧
      (paramsA.growthMin ≤ (backend.trialFor paramsA zeroDraws zeroDraws 0).g ∧
        (backend.trialFor paramsA zeroDraws zeroDraws 0).g ≤ paramsA.growthMax) ∧
      (paramsA.peMin ≤ (backend.trialFor paramsA zeroDraws zeroDraws 0).peT ∧
        (backend.trialFor paramsA zeroDraws zeroDraws 0).peT ≤ paramsA.peMax)) :=
  ⟨⟨by decide, by decide, by decide, by decide, by decide⟩,
    (c1_trial_invariants paramsA zeroDraws zeroDraws
        (by decide) (by decide) (by decide) (by decide) (by decide)).1
      (backend.trialFor paramsA zeroDraws zeroDraws 0)
      (List.mem_map.mpr ⟨0, by decide, rfl⟩)⟩

/-- C1 counterexample: the claim as stated quantifies over ANY numeric
bounds; with inverted bounds `growthMin = 1 > 0 = growthMax` (and likewise
for P/E), `price0 > 0`, `years > 0` and one trial, the sampler's clamp
fallback produces `g = 1 ∉ [1, 0]` and `peT = 1 ∉ [1, 0]`, so the range
invariant fails. -/
theorem c1_range_counterexample :
    0 < paramsInverted.price0 ∧ 0 < paramsInverted.years ∧
    0 < paramsInverted.numSimulations ∧
    backend.trialFor paramsInverted zeroDraws zeroDraws 0 ∈
      backend.simTrials paramsInverted zeroDraws zeroDraws ∧
    ¬ ((paramsInverted.growthMin ≤ (backend.trialFor paramsInverted zeroDraws zeroDraws 0).g ∧
        (backend.trialFor paramsInverted zeroDraws zeroDraws 0).g ≤ paramsInverted.growthMax) ∧
      (paramsInverted.peMin ≤ (backend.trialFor paramsInverted zeroDraws zeroDraws 0).peT ∧
        (backend.trialFor paramsInverted zeroDraws zeroDraws 0).peT ≤ paramsInverted.peMax)) := by
  refine ⟨by decide, by decide, by decide, List.mem_map.mpr ⟨0, by decide, rfl⟩, ?_⟩
  have hrej : ∀ j : ℕ, (5 : ℚ) + 0 * zeroDraws 0 j < 1 ∨ (0 : ℚ) < 5 + 0 * zeroDraws 0 j :=
    fun j => Or.inr (by simp only [zeroDraws, zero_mul, add_zero]; decide)
  have hg : (backend.trialFor paramsInverted zeroDraws zeroDraws 0).g = 1 :=
    calc (backend.trialFor paramsInverted zeroDraws zeroDraws 0).g
        = backend.sampleTruncatedNormal 5 0 1 0 (zeroDraws 0) := rfl
      _ = max 1 (min 0 5) := stn_reject_all 5 0 1 0 (zeroDraws 0) hrej
      _ = 1 := by
          rw [min_eq_left (by norm_num : (0 : ℚ) ≤ 5),
            max_eq_left (by norm_num : (0 : ℚ) ≤ 1)]
  intro hcon
  rw [hg] at hcon
  exact absurd hcon.1.2 (by decide)

/-- C4 (code bug): at 4000 trials the backend CSV route emits one row per
trial of the full set, but the worker CSV route — contradicting its own
source comment "Use rawResults from full simulation (before sampling)" —
iterates the stride-2 `sampledResults` and emits only 2000 rows. -/
lemma backend_rawResults (p : Params) (gN pN : ℕ → ℕ → ℚ) :
    (backend.runSimulation p gN pN).rawResults = backend.simTrials p gN pN := rfl

lemma worker_sampledResults (p : Params) (gN pN : ℕ → ℕ → ℚ) :
    (worker.runSimulation p gN pN).sampledResults =
      strideSample (worker.simTrials p gN pN)
        (max 1 ((worker.simTrials p gN pN).length / 2000)) := rfl

lemma backend_simTrials_length (p : Params) (gN pN : ℕ → ℕ → ℚ) :
    (backend.simTrials p gN pN).length = p.numSimulations := by
  unfold backend.simTrials
  rw [List.length_map, List.length_range]

lemma worker_simTrials_length (p : Params) (gN pN : ℕ → ℕ → ℚ) :
    (worker.simTrials p gN pN).length = p.numSimulations := by
  rw [← simTrials_eq]
  exact backend_simTrials_length p gN pN

lemma strideSample_length {β : Type} [Inhabited β] (l : List β) (step : ℕ) :
    (strideSample l step).length = (l.length + step - 1) / step := by
  unfold strideSample
  rw [List.length_map, List.length_range]

lemma backend_csvRows_length (p : Params) (gN pN : ℕ → ℕ → ℚ) :
    (backend.csvRows p gN pN).length = p.numSimulations := by
  unfold backend.csvRows
  rw [List.length_map, List.enum_length, backend_rawResults, backend_simTrials_length]

lemma worker_csvRows_length (p : Params) (gN pN : ℕ → ℕ → ℚ) :
    (worker.csvRows p gN pN).length =
      (p.numSimulations + max 1 (p.numSimulations / 2000) - 1) /
        max 1 (p.numSimulations / 2000) := by
  unfold worker.csvRows
  rw [List.length_map, List.enum_length, worker_sampledResults, strideSample_length,
    worker_simTrials_length]

/-- C4 (code bug): at 4000 trials the backend CSV route emits one row per
trial of the full set, but the worker CSV route — contradicting its own
source comment "Use rawResults from full simulation (before sampling)" —
iterates the stride-2 `sampledResults` and emits only 2000 rows. -/
theorem c4_worker_csv_downsampled :
    (backend.csvRows paramsCsv zeroDraws zeroDraws).length = 4000 ∧
    (worker.simTrials paramsCsv zeroDraws zeroDraws).length = 4000 ∧
    (worker.csvRows paramsCsv zeroDraws zeroDraws).length = 2000 := by
  rw [backend_csvRows_length, worker_simTrials_length, worker_csvRows_length]
  refine ⟨rfl, rfl, by decide⟩

lemma collectGrowthRates_eq :
    ∀ eh : List EpsEntry, backend.collectGrowthRates eh = worker.collectGrowthRates eh := by
  intro eh
  induction eh with
  | nil => rfl
  | cons a t ih =>
    cases t with
    | nil => rfl
    | cons b rest =>
      simp only [backend.collectGrowthRates, worker.collectGrowthRates]
      rcases a.eps with _ | prev <;> rcases b.eps with _ | curr <;>
        simp only [ih]

lemma computeEPSGrowthDistribution_eq (eh : Option (List EpsEntry)) :
    backend.computeEPSGrowthDistribution eh = worker.computeEPSGrowthDistribution eh := by
  cases eh with
  | none => rfl
  | some l =>
    have hm : @backend.median = @worker.median := rfl
    have hrs : @backend.robustSigma = @worker.robustSigma := rfl
    simp only [backend.computeEPSGrowthDistribution, worker.computeEPSGrowthDistribution,
      collectGrowthRates_eq, hm, hrs]

lemma worker_distributions (p : Params) (gN pN : ℕ → ℕ → ℚ) :
    (worker.runSimulation p gN pN).distributions =
      worker.distributionsOf (worker.simTrials p gN pN) := rfl

lemma distributionsOf_shape_eq (l : List Trial) :
    distShape (backend.distributionsOf l) = distShape (worker.distributionsOf l) := by
  simp only [distShape, backend.distributionsOf, worker.distributionsOf]
  rw [hist_shape_eq (l.map Trial.priceT) 50, hist_shape_eq (l.map Trial.cagr) 50,
    hist_shape_eq (l.map Trial.g) 30, hist_shape_eq (l.map Trial.peT) 30]

/-- C5 (amended): the statistics functions duplicated across the backend
and worker modules — `median`, `mad`, `madSigma`, `iqrSigma`,
`robustSigma`, `percentile`, `computeEPSGrowthDistribution`,
`computePEDistribution`, `sampleTruncatedNormal` — compute identical
functions; `buildHistogram` agrees on every bin field except that the
backend's degenerate single bin omits `binMid` (full agreement whenever the
value range is non-degenerate); and the two `runSimulation`s agree on the
trial list, summary, scenarios, sensitivity, input echo and on all
histogram fields except `binMid`, but the backend returns the full trial
list as `rawResults` while the worker instead returns the
stride-downsampled `sampledResults`. -/
theorem c5_module_pair_agreement :
    (∀ arr : List ℚ, backend.median arr = worker.median arr) ∧
    (∀ arr : List ℚ, backend.mad arr = worker.mad arr) ∧
    (∀ arr : List ℚ, backend.madSigma arr = worker.madSigma arr) ∧
    (∀ arr : List ℚ, backend.iqrSigma arr = worker.iqrSigma arr) ∧
    (∀ arr : List ℚ, backend.robustSigma arr = worker.robustSigma arr) ∧
    (∀ (arr : List ℚ) (p : ℚ), backend.percentile arr p = worker.percentile arr p) ∧
    (∀ eh : Option (List EpsEntry),
      backend.computeEPSGrowthDistribution eh = worker.computeEPSGrowthDistribution eh) ∧
    (∀ pes : Option (List ℚ),
      backend.computePEDistribution pes = worker.computePEDistribution pes) ∧
    (∀ (mean sigma mn mx : ℚ) (normals : ℕ → ℚ),
      backend.sampleTruncatedNormal mean sigma mn mx normals =
        worker.sampleTruncatedNormal mean sigma mn mx normals) ∧
    (∀ (values : List ℚ) (numBins : ℕ),
      (backend.buildHistogram values numBins).map binShape =
        (worker.buildHistogram values numBins).map binShape) ∧
    (∀ (values : List ℚ) (numBins : ℕ), backend.listMin values ≠ backend.listMax values →
      numBins ≠ 0 →
      backend.buildHistogram values numBins = worker.buildHistogram values numBins) ∧
    (∀ (p : Params) (gN pN : ℕ → ℕ → ℚ),
      backend.simTrials p gN pN = worker.simTrials p gN pN ∧
      (backend.runSimulation p gN pN).summary = (worker.runSimulation p gN pN).summary ∧
      (backend.runSimulation p gN pN).scenarios = (worker.runSimulation p gN pN).scenarios ∧
      (backend.runSimulation p gN pN).sensitivity =
        (worker.runSimulation p gN pN).sensitivity ∧
      (backend.runSimulation p gN pN).inputParams =
        (worker.runSimulation p gN pN).inputParams ∧
      distShape (backend.runSimulation p gN pN).distributions =
        distShape (worker.runSimulation p gN pN).distributions ∧
      (backend.runSimulation p gN pN).rawResults = backend.simTrials p gN pN ∧
      (worker.runSimulation p gN pN).sampledResults =
        strideSample (worker.simTrials p gN pN)
          (max 1 ((worker.simTrials p gN pN).length / 2000))) := by
  refine ⟨fun arr => rfl, fun arr => rfl, fun arr => rfl, fun arr => rfl, fun arr => rfl,
    fun arr p => rfl, computeEPSGrowthDistribution_eq, fun pes => rfl, stn_eq, hist_shape_eq,
    hist_eq_of_nondegenerate, ?_⟩
  intro p gN pN
  have ht := simTrials_eq p gN pN
  refine ⟨ht, congrArg (worker.summaryOf p) ht, congrArg (worker.scenariosOf p) ht,
    congrArg (worker.sensitivityOf p) ht, rfl, ?_,
    backend_rawResults p gN pN, worker_sampledResults p gN pN⟩
  calc distShape (backend.runSimulation p gN pN).distributions
      = distShape (worker.distributionsOf (backend.simTrials p gN pN)) :=
        distributionsOf_shape_eq (backend.simTrials p gN pN)
    _ = distShape (worker.runSimulation p gN pN).distributions := by
        rw [ht, worker_distributions]

/-- C5 witness: the non-degenerate histogram clause applies at `[1, 2]`
with one bin, where the two copies agree exactly. -/
theorem c5_module_pair_agreement_witness :
    backend.listMin ([1, 2] : List ℚ) ≠ backend.listMax ([1, 2] : List ℚ) ∧ (1 : ℕ) ≠ 0 ∧
    backend.buildHistogram ([1, 2] : List ℚ) 1 = worker.buildHistogram ([1, 2] : List ℚ) 1 :=
  ⟨by decide, by decide,
    c5_module_pair_agreement.2.2.2.2.2.2.2.2.2.2.1 [1, 2] 1 (by decide) (by decide)⟩

/-- C5 counterexample: on the constant series `[5, 5]` the two
`buildHistogram` copies return different degenerate bins — the backend's
lacks `binMid` while the worker's sets `binMid = 5` — so the two modules do
not compute identical functions. -/
theorem c5_histogram_binmid_counterexample :
    backend.buildHistogram ([5, 5] : List ℚ) 3 ≠ worker.buildHistogram ([5, 5] : List ℚ) 3 := by
  have h1 : backend.listMin ([5, 5] : List ℚ) = 5 := by decide
  have h2 : backend.listMax ([5, 5] : List ℚ) = 5 := by decide
  have hdeg : (backend.listMax ([5, 5] : List ℚ) - backend.listMin ([5, 5] : List ℚ)) /
      ((3 : ℕ) : ℚ) = 0 := by
    rw [h1, h2]
    norm_num
  have hwmin : @worker.listMin = @backend.listMin := rfl
  have hwmax : @worker.listMax = @backend.listMax := rfl
  have hb : backend.buildHistogram ([5, 5] : List ℚ) 3 =
      [{ binStart := 5, binEnd := 5, binMid := none, count := 2, frequency := 1 }] := by
    simp only [backend.buildHistogram]
    rw [if_pos hdeg]
    decide
  have hw : worker.buildHistogram ([5, 5] : List ℚ) 3 =
      [{ binStart := 5, binEnd := 5, binMid := some 5, count := 2, frequency := 1 }] := by
    simp only [worker.buildHistogram, hwmin, hwmax]
    rw [if_pos hdeg]
    decide
  rw [hb, hw]
  decide
